import Mathlib

/-!
Verification of the worker-supervision and watchdog-recovery subsystem of
`autoptsserver.py` (auto-pts). Each Python component is shallowly embedded as
an executable Lean definition, translated from the source:

* `SuperGuard` (watchdog thread, lines 207-238) — a state machine over a
  registry of servers, an idle threshold, and the `was_timeout` flag; one
  iteration of its polling loop is `sgStep`.
* `Server.terminate` (lines 301-309) — a transition on the server's
  observable state (shutdown-thread spawns and the failure queue).
* `Server.last_start` and the file-utility RPC handlers (lines 249-252 and
  311-337) — state-passing functions over a worker-state record.
* `kill_all_processes`, `delete_workspaces`, `recover_pts`,
  `turn_on_dongle` (lines 156-204) — effect-trace producing functions over
  an explicit world (process table, directory tree); fallible parts return
  `Except`.
* `SvrArgumentParser.check_args` (lines 128-139) and the `__main__`
  supervision loop (lines 363-409) — pure decision functions.

Wall-clock times (Python floats) are modelled as integers; nothing proved
here depends on fractional time values. File and process names are modelled
as `List Char` so that all predicates compute in the kernel.
-/

/-! ## SuperGuard: the watchdog (autoptsserver.py lines 207-238) -/

/-- A registered worker as the watchdog sees it: an identity and the value
its `last_start()` currently reports (lines 249-252). -/
structure Srv where
  sid : Nat
  lastStart : Int
deriving Repr, DecidableEq

/-- State of a `SuperGuard` instance: `servers` registry, the idle
`timeout`, and the `was_timeout` flag (lines 208-214; `end` and the queue
reference play no role in the claims). -/
structure SGState where
  servers : List Srv
  timeout : Int
  was_timeout : Bool
deriving Repr, DecidableEq

/-- `time.time() - srv.last_start() > self.timeout` (line 220). -/
def sgIdle (now timeout : Int) (s : Srv) : Bool :=
  decide (now - s.lastStart > timeout)

/-- The `idle_num` counter computed by one iteration of `SuperGuard.run`
(lines 218-221). -/
def sgIdleNum (now : Int) (g : SGState) : Nat :=
  g.servers.countP (sgIdle now g.timeout)

/-- The firing condition `idle_num == len(self.servers) and idle_num != 0`
(line 223). -/
def sgFired (now : Int) (g : SGState) : Bool :=
  decide (sgIdleNum now g = g.servers.length) && decide (sgIdleNum now g ≠ 0)

/-- One iteration of the `SuperGuard.run` polling loop (lines 217-228):
returns the new watchdog state together with the list of
`srv.terminate('Superguard timeout')` calls issued (worker id, message). -/
def sgStep (now : Int) (g : SGState) : SGState × List (Nat × String) :=
  if sgFired now g then
    ({ g with servers := [], was_timeout := true },
     g.servers.map (fun s => (s.sid, "Superguard timeout")))
  else (g, [])

/-- `SuperGuard.clear` (lines 230-232). -/
def sgClear (g : SGState) : SGState :=
  { g with servers := [], was_timeout := false }

/-- `SuperGuard.add_server` (lines 234-235). -/
def sgAddServer (s : Srv) (g : SGState) : SGState :=
  { g with servers := g.servers ++ [s] }

/-- The operations other threads and the polling loop perform on a
`SuperGuard` instance. -/
inductive SGOp where
  | poll (now : Int)
  | clear
  | add (s : Srv)
deriving Repr, DecidableEq

/-- Apply one operation; only a poll can issue terminations. -/
def sgExecOp : SGOp → SGState → SGState × List (Nat × String)
  | .poll now, g => sgStep now g
  | .clear, g => (sgClear g, [])
  | .add s, g => (sgAddServer s g, [])

/-- Run a sequence of watchdog operations, accumulating all termination
calls issued. -/
def sgExecTrace : List SGOp → SGState → SGState × List (Nat × String)
  | [], g => (g, [])
  | o :: os, g =>
      let p := sgExecOp o g
      let q := sgExecTrace os p.1
      (q.1, p.2 ++ q.2)

theorem sgFired_iff (now : Int) (g : SGState) :
    sgFired now g = true ↔
      g.servers ≠ [] ∧ ∀ s ∈ g.servers, now - s.lastStart > g.timeout := by
  unfold sgFired sgIdleNum
  constructor
  · intro h
    simp only [Bool.and_eq_true, decide_eq_true_eq] at h
    obtain ⟨hall, hne⟩ := h
    have hmem := (List.countP_eq_length (p := sgIdle now g.timeout)).mp hall
    refine ⟨?_, fun s hs => ?_⟩
    · intro hnil
      rw [hnil] at hne
      simp at hne
    · have := hmem s hs
      simpa [sgIdle] using this
  · intro ⟨hne, hall⟩
    simp only [Bool.and_eq_true, decide_eq_true_eq]
    have hcnt : g.servers.countP (sgIdle now g.timeout) = g.servers.length :=
      (List.countP_eq_length (p := sgIdle now g.timeout)).mpr
        (fun s hs => by simpa [sgIdle] using hall s hs)
    refine ⟨hcnt, ?_⟩
    rw [hcnt]
    simpa [List.length_eq_zero] using hne

/-- C1: one watchdog polling iteration force-terminates the fleet iff the
registry is non-empty and every registered worker's idle duration
`now - lastStart()` exceeds the threshold; when it fires it terminates
every registered worker and empties the registry, so it cannot fire a
second time; a two-worker fleet with threshold 10 where one worker was
refreshed within the last time unit never fires, and a two-worker fleet
where both are 11 units idle fires exactly once across two polls,
terminating both workers (autoptsserver.py lines 216-228). -/
theorem superguard_fires_iff_all_idle (now : Int) (g : SGState) :
    (sgFired now g = true ↔
      g.servers ≠ [] ∧ ∀ s ∈ g.servers, now - s.lastStart > g.timeout)
    ∧ (sgFired now g = true →
        (sgStep now g).2 = g.servers.map (fun s => (s.sid, "Superguard timeout"))
        ∧ (sgStep now g).1.servers = [] ∧ (sgStep now g).1.was_timeout = true)
    ∧ (sgFired now g = false → sgStep now g = (g, []))
    ∧ (∀ now2 t b, sgFired now2 { servers := [], timeout := t, was_timeout := b } = false)
    ∧ (∀ now1 l1 l2, now1 - l1 ≤ 1 →
        sgFired now1 { servers := [⟨1, l1⟩, ⟨2, l2⟩], timeout := 10, was_timeout := false } = false)
    ∧ sgExecTrace [.poll 11, .poll 16]
        { servers := [⟨1, 0⟩, ⟨2, 0⟩], timeout := 10, was_timeout := false }
      = ({ servers := [], timeout := 10, was_timeout := true },
         [(1, "Superguard timeout"), (2, "Superguard timeout")]) := by
  refine ⟨sgFired_iff now g, ?_, ?_, ?_, ?_, ?_⟩
  · intro h
    simp [sgStep, h]
  · intro h
    simp [sgStep, h]
  · intro now2 t b
    simp [sgFired, sgIdleNum]
  · intro now1 l1 l2 h
    have : ¬ (now1 - l1 > 10) := by omega
    simp [sgFired, sgIdleNum, List.countP_cons, sgIdle, this]
    intro h2
    split at h2 <;> omega
  · decide

/-- Witness for `superguard_fires_iff_all_idle` at a concrete fleet: two
workers both idle for 11 > 10 units, hypotheses of the inner implications
discharged concretely. -/
theorem superguard_fires_iff_all_idle_witness :
    (sgFired 11 { servers := [⟨1, 0⟩, ⟨2, 0⟩], timeout := 10, was_timeout := false } = true →
      (sgStep 11 { servers := [⟨1, 0⟩, ⟨2, 0⟩], timeout := 10, was_timeout := false }).2
        = [(1, "Superguard timeout"), (2, "Superguard timeout")]
      ∧ (sgStep 11 { servers := [⟨1, 0⟩, ⟨2, 0⟩], timeout := 10, was_timeout := false }).1.servers = []
      ∧ (sgStep 11 { servers := [⟨1, 0⟩, ⟨2, 0⟩], timeout := 10, was_timeout := false }).1.was_timeout = true)
    ∧ sgFired 11 { servers := [⟨1, 0⟩, ⟨2, 0⟩], timeout := 10, was_timeout := false } = true := by
  have h := superguard_fires_iff_all_idle 11
    { servers := [⟨1, 0⟩, ⟨2, 0⟩], timeout := 10, was_timeout := false }
  refine ⟨fun hf => ?_, by decide⟩
  have := h.2.1 hf
  simpa using this

theorem sgExecOp_flag_mono (o : SGOp) (g : SGState) (ho : o ≠ SGOp.clear)
    (h : g.was_timeout = true) : (sgExecOp o g).1.was_timeout = true := by
  cases o with
  | poll now =>
      simp only [sgExecOp, sgStep]
      split <;> simp [h]
  | clear => exact absurd rfl ho
  | add s => simpa [sgExecOp, sgAddServer] using h

theorem sgExecTrace_flag_mono (ops : List SGOp) (g : SGState)
    (ho : ∀ o ∈ ops, o ≠ SGOp.clear) (h : g.was_timeout = true) :
    (sgExecTrace ops g).1.was_timeout = true := by
  induction ops generalizing g with
  | nil => simpa [sgExecTrace] using h
  | cons o os ih =>
      simp only [sgExecTrace]
      exact ih (sgExecOp o g).1 (fun x hx => ho x (by simp [hx]))
        (sgExecOp_flag_mono o g (ho o (by simp)) h)

/-- C7: the `was_timeout` flag is set at most once per registration epoch.
After a firing poll the registry is empty and the flag is set, and any
further operations that are not `clear()` keep the flag set; `clear()`
(lines 230-232) empties the registry and resets the flag in the same
transition, so directly after `clear()` no stale flag survives from the
earlier epoch (autoptsserver.py lines 216-232). -/
theorem superguard_flag_epoch (now : Int) (g : SGState) (ops : List SGOp) :
    (sgFired now g = true →
      (sgStep now g).1.servers = [] ∧ (sgStep now g).1.was_timeout = true)
    ∧ sgClear g = { servers := [], timeout := g.timeout, was_timeout := false }
    ∧ ((sgClear g).servers = [] ∧ (sgClear g).was_timeout = false)
    ∧ ((∀ o ∈ ops, o ≠ SGOp.clear) → g.was_timeout = true →
        (sgExecTrace ops g).1.was_timeout = true) := by
  refine ⟨fun h => ?_, rfl, ⟨rfl, rfl⟩, sgExecTrace_flag_mono ops g⟩
  simp [sgStep, h]

/-- Witness for `superguard_flag_epoch`: the fleet of
`superguard_fires_iff_all_idle_witness` fires at time 11, and two
subsequent non-clear operations keep the flag set. -/
theorem superguard_flag_epoch_witness :
    ((sgStep 11 { servers := [⟨1, 0⟩, ⟨2, 0⟩], timeout := 10, was_timeout := false }).1.servers = []
      ∧ (sgStep 11 { servers := [⟨1, 0⟩, ⟨2, 0⟩], timeout := 10, was_timeout := false }).1.was_timeout = true)
    ∧ (sgExecTrace [.add ⟨3, 0⟩, .poll 20]
        { servers := [], timeout := 10, was_timeout := true }).1.was_timeout = true := by
  have h := superguard_flag_epoch 11
    { servers := [⟨1, 0⟩, ⟨2, 0⟩], timeout := 10, was_timeout := false }
    [.add ⟨3, 0⟩, .poll 20]
  refine ⟨h.1 (by decide), ?_⟩
  have h2 := superguard_flag_epoch 11 { servers := [], timeout := 10, was_timeout := true }
    [.add ⟨3, 0⟩, .poll 20]
  exact h2.2.2.2 (by decide) rfl

/-! ## Watchdog start-up in `__main__` (autoptsserver.py lines 373-375) -/

/-- The state a fresh `SuperGuard(timeout, queue)` starts in (lines
208-214). -/
def mkSuperGuard (timeout : Int) : SGState :=
  { servers := [], timeout := timeout, was_timeout := false }

/-- The truthiness test `if _args.superguard:` guarding
`superguard.start()` (line 374); `_args.superguard` is the configured
minutes value scaled by 60 in `check_args` (line 139). -/
def superguardStarted (superguard : Int) : Bool :=
  superguard != 0

/-- The operations actually applied to the `SuperGuard` instance during a
program run: if the thread was never started, the polling loop never
executes, so only the supervisor's `add_server`/`clear` calls happen. -/
def sgThreadOps (started : Bool) (ops : List SGOp) : List SGOp :=
  if started then ops
  else ops.filter (fun o => match o with | .poll _ => false | _ => true)

theorem sgExecTrace_no_poll (ops : List SGOp) (g : SGState)
    (hp : ∀ t, SGOp.poll t ∉ ops) (h : g.was_timeout = false) :
    (sgExecTrace ops g).2 = [] ∧ (sgExecTrace ops g).1.was_timeout = false := by
  induction ops generalizing g with
  | nil => simpa [sgExecTrace] using h
  | cons o os ih =>
      have ho : ∀ t, SGOp.poll t ∉ os := fun t ht => hp t (by simp [ht])
      cases o with
      | poll t => exact absurd (by simp) (hp t)
      | clear =>
          have := ih (sgClear g) ho rfl
          simpa [sgExecTrace, sgExecOp] using this
      | add s =>
          have := ih (sgAddServer s g) ho (by simpa [sgAddServer] using h)
          simpa [sgExecTrace, sgExecOp] using this

/-- C9: with a configured superguard value of zero minutes, the scaled
timeout `60 * minutes` is zero, so `if _args.superguard:` is false and the
polling thread is never started; consequently over any sequence of
watchdog operations no termination call is ever issued by the watchdog and
`was_timeout` never becomes true (autoptsserver.py lines 139, 216-228,
373-375). -/
theorem superguard_zero_never_fires (minutes : Int) (ops : List SGOp)
    (h : minutes = 0) :
    superguardStarted (60 * minutes) = false
    ∧ (sgExecTrace (sgThreadOps (superguardStarted (60 * minutes)) ops)
        (mkSuperGuard (60 * minutes))).2 = []
    ∧ (sgExecTrace (sgThreadOps (superguardStarted (60 * minutes)) ops)
        (mkSuperGuard (60 * minutes))).1.was_timeout = false := by
  subst h
  have hs : superguardStarted (60 * 0) = false := by decide
  refine ⟨hs, ?_⟩
  rw [hs]
  have hp : ∀ t, SGOp.poll t ∉ sgThreadOps false ops := by
    intro t ht
    have hm : sgThreadOps false ops
        = ops.filter (fun o => match o with | .poll _ => false | _ => true) := by
      simp [sgThreadOps]
    rw [hm] at ht
    exact Bool.false_ne_true (List.of_mem_filter ht)
  exact sgExecTrace_no_poll _ (mkSuperGuard (60 * 0)) hp rfl

/-- Witness for `superguard_zero_never_fires`: zero minutes with a trace
that registers a worker and would poll at time 1000. -/
theorem superguard_zero_never_fires_witness :
    superguardStarted (60 * 0) = false
    ∧ (sgExecTrace (sgThreadOps (superguardStarted (60 * 0)) [.add ⟨1, 0⟩, .poll 1000])
        (mkSuperGuard (60 * 0))).2 = []
    ∧ (sgExecTrace (sgThreadOps (superguardStarted (60 * 0)) [.add ⟨1, 0⟩, .poll 1000])
        (mkSuperGuard (60 * 0))).1.was_timeout = false :=
  superguard_zero_never_fires 0 [.add ⟨1, 0⟩, .poll 1000] rfl

/-! ## `Server.terminate` (autoptsserver.py lines 301-309) -/

/-- Observable state of one `Server` relevant to `terminate`: whether an
endpoint object exists (`self.server`), the attached failure queue
(`self.queue`, `None` when absent), and how many asynchronous
`server.shutdown` threads have been spawned. -/
structure SrvTState where
  hasServer : Bool
  queue : Option (List String)
  shutdownThreads : Nat
deriving Repr, DecidableEq

/-- `Server.terminate(msg)` (lines 301-309): if `self.server` exists,
spawn a daemon thread running `self.server.shutdown`; then, if a queue is
attached, put `Exception(msg)` on it. Both actions happen on every call. -/
def terminate (msg : String) (s : SrvTState) : SrvTState :=
  { hasServer := s.hasServer
    shutdownThreads :=
      if s.hasServer then s.shutdownThreads + 1 else s.shutdownThreads
    queue :=
      match s.queue with
      | some q => some (q ++ [msg])
      | none => none }

/-- C2 counterexample: `terminate` is not idempotent. On a server with an
endpoint and an attached empty queue, a second call is not a no-op: it
pushes a second failure-cause entry (two entries total, where the claim
allows at most one) and spawns a second shutdown thread
(autoptsserver.py lines 301-309). -/
theorem terminate_not_idempotent_cex :
    terminate "Superguard timeout"
        (terminate "Superguard timeout"
          { hasServer := true, queue := some [], shutdownThreads := 0 })
      ≠ terminate "Superguard timeout"
          { hasServer := true, queue := some [], shutdownThreads := 0 }
    ∧ (terminate "Superguard timeout"
        (terminate "Superguard timeout"
          { hasServer := true, queue := some [], shutdownThreads := 0 })).queue
      = some ["Superguard timeout", "Superguard timeout"]
    ∧ (terminate "Superguard timeout"
        (terminate "Superguard timeout"
          { hasServer := true, queue := some [], shutdownThreads := 0 })).shutdownThreads
      = 2 := by
  decide

/-- C2 amended: `terminate` is not idempotent. Every call with a queue
attached appends one failure-cause entry, so N calls push exactly N
entries (not at most one); every call with an endpoint present spawns one
more asynchronous shutdown thread; the endpoint reference itself is
unchanged (autoptsserver.py lines 301-309). -/
theorem terminate_appends_each_call (msg : String) (s : SrvTState) (n : Nat) :
    ((terminate msg)^[n] s).queue = s.queue.map (fun q => q ++ List.replicate n msg)
    ∧ ((terminate msg)^[n] s).shutdownThreads
      = s.shutdownThreads + (if s.hasServer then n else 0)
    ∧ ((terminate msg)^[n] s).hasServer = s.hasServer := by
  induction n with
  | zero =>
      cases hq : s.queue <;> simp [hq]
  | succ k ih =>
      obtain ⟨ihq, ihn, ihs⟩ := ih
      rw [Function.iterate_succ_apply']
      refine ⟨?_, ?_, ?_⟩
      · rw [terminate, ihq]
        cases hq : s.queue with
        | none => simp
        | some q => simp [List.replicate_succ' k msg]
      · rw [terminate, ihs, ihn]
        cases hs : s.hasServer <;> simp [Nat.add_assoc]
      · rw [terminate, ihs]

/-! ## Directory trees and `delete_workspaces` (autoptsserver.py lines 167-178) -/

/-- A directory entry as `os.scandir` sees it: a regular file or a
subdirectory with its own entries. Names are lists of characters. -/
inductive Entry where
  | file (name : List Char)
  | dir (name : List Char) (children : List Entry)

/-- The characters of the literal `'temp_'` (line 174). -/
def tempPat : List Char := ['t', 'e', 'm', 'p', '_']

/-- The characters of the literal `'.pqw6'` (line 174). -/
def pqw6Pat : List Char := ['.', 'p', 'q', 'w', '6']

/-- `f.name.startswith('temp_') and f.name.endswith('.pqw6')` (line 174). -/
def matchesTemp (n : List Char) : Bool :=
  tempPat.isPrefixOf n && pqw6Pat.isSuffixOf n

/-- The body of the nested `recursive(directory, depth)` of
`delete_workspaces` (lines 168-175), acting on the entries of one
directory. The parameter `d` is the value of `depth` after the decrement
on line 169. A subdirectory is entered (with budget `d - 1`) only while
`d > 0`; otherwise a directory whose name matches the pattern reaches
`os.remove(f)`, which fails on a directory — modelled as `Except.error`.
A matching file is removed. Returns the surviving entries together with
the names of the removed files, in removal order. -/
def scanChildren : Nat → List Entry → Except (List Char) (List Entry × List (List Char))
  | _, [] => .ok ([], [])
  | d, .file n :: rest =>
      if matchesTemp n then
        (scanChildren d rest).map (fun r => (r.1, n :: r.2))
      else
        (scanChildren d rest).map (fun r => (.file n :: r.1, r.2))
  | d, .dir n cs :: rest =>
      if 0 < d then
        (scanChildren (d - 1) cs).bind (fun c =>
          (scanChildren d rest).map (fun r => (.dir n c.1 :: r.1, c.2 ++ r.2)))
      else if matchesTemp n then .error n
      else (scanChildren d rest).map (fun r => (.dir n cs :: r.1, r.2))

/-- `init_depth = 4` (line 177). -/
def init_depth : Nat := 4

/-- `delete_workspaces()` (lines 167-178) applied to the entries of the
`workspaces` directory: `recursive(workspaces, 4)` first decrements the
depth to 3 and then scans the top-level entries with that budget. -/
def delete_workspaces (ws : List Entry) :
    Except (List Char) (List Entry × List (List Char)) :=
  scanChildren (init_depth - 1) ws

/-- All files of a tree with their depth level; entries directly in the
scanned directory are at level `lvl`. -/
def filesFrom : Nat → List Entry → List (Nat × List Char)
  | _, [] => []
  | lvl, .file n :: rest => (lvl, n) :: filesFrom lvl rest
  | lvl, .dir _ cs :: rest => filesFrom (lvl + 1) cs ++ filesFrom lvl rest

/-- All directories of a tree with their depth level. -/
def dirsFrom : Nat → List Entry → List (Nat × List Char)
  | _, [] => []
  | lvl, .file _ :: rest => dirsFrom lvl rest
  | lvl, .dir n cs :: rest => (lvl, n) :: (dirsFrom (lvl + 1) cs ++ dirsFrom lvl rest)

theorem filesFrom_level_le (lvl : Nat) (es : List Entry) :
    ∀ p ∈ filesFrom lvl es, lvl ≤ p.1 := by
  induction lvl, es using filesFrom.induct with
  | case1 lvl => simp [filesFrom]
  | case2 lvl n rest ih =>
      intro p hp
      rcases (by simpa [filesFrom] using hp : p = (lvl, n) ∨ p ∈ filesFrom lvl rest) with h | h
      · simp [h]
      · exact ih p h
  | case3 lvl n cs rest ihc ihr =>
      intro p hp
      rcases (by simpa [filesFrom] using hp :
          p ∈ filesFrom (lvl + 1) cs ∨ p ∈ filesFrom lvl rest) with h | h
      · exact le_trans (by omega) (ihc p h)
      · exact ihr p h

theorem scanChildren_ok (d : Nat) (es : List Entry) :
    ∀ lvl : Nat,
      (∀ p ∈ dirsFrom lvl es, p.1 = lvl + d → matchesTemp p.2 = false) →
      ∃ pr, scanChildren d es = .ok pr
        ∧ filesFrom lvl pr.1
            = (filesFrom lvl es).filter (fun p => !(decide (p.1 ≤ lvl + d) && matchesTemp p.2))
        ∧ pr.2 = ((filesFrom lvl es).filter
            (fun p => decide (p.1 ≤ lvl + d) && matchesTemp p.2)).map (fun p => p.2) := by
  induction d, es using scanChildren.induct with
  | case1 d =>
      intro lvl _
      exact ⟨([], []), by simp [scanChildren], by simp [filesFrom], by simp [filesFrom]⟩
  | case2 d n rest hm ih =>
      intro lvl h
      obtain ⟨pr, hok, hkeep, hrem⟩ := ih lvl (fun p hp hl => h p (by simpa [dirsFrom] using hp) hl)
      have hb : decide (lvl ≤ lvl + d) = true := decide_eq_true (Nat.le_add_right lvl d)
      refine ⟨(pr.1, n :: pr.2), ?_, ?_, ?_⟩
      · simp [scanChildren, hm, hok, Except.map]
      · simp [filesFrom, List.filter_cons, hm, hb, hkeep]
      · simp [filesFrom, List.filter_cons, hm, hb, hrem]
  | case3 d n rest hm ih =>
      intro lvl h
      obtain ⟨pr, hok, hkeep, hrem⟩ := ih lvl (fun p hp hl => h p (by simpa [dirsFrom] using hp) hl)
      refine ⟨(.file n :: pr.1, pr.2), ?_, ?_, ?_⟩
      · simp [scanChildren, hm, hok, Except.map]
      · simp [filesFrom, List.filter_cons, hm, hkeep]
      · simp [filesFrom, List.filter_cons, hm, hrem]
  | case4 d n cs rest hd ihc ihr =>
      intro lvl h
      have hshift : lvl + 1 + (d - 1) = lvl + d := by omega
      obtain ⟨pc, hokc, hkeepc, hremc⟩ := ihc (lvl + 1) (by
        intro p hp hl
        exact h p (by simp [dirsFrom, hp]) (by omega))
      obtain ⟨pint, hokr, hkeepr, hremr⟩ := ihr lvl (by
        intro p hp hl
        exact h p (by simp [dirsFrom, hp]) hl)
      rw [hshift] at hkeepc hremc
      refine ⟨(.dir n pc.1 :: pint.1, pc.2 ++ pint.2), ?_, ?_, ?_⟩
      · simp [scanChildren, hd, hokc, hokr, Except.bind, Except.map]
      · simp only [filesFrom]
        rw [hkeepc, hkeepr, List.filter_append]
      · simp only [filesFrom]
        rw [hremc, hremr, List.filter_append, List.map_append]
  | case5 d n cs rest hd hm =>
      intro lvl h
      have hd0 : d = 0 := by omega
      subst hd0
      have := h (lvl, n) (by simp [dirsFrom]) (by omega)
      rw [hm] at this
      exact absurd this (by simp)
  | case6 d n cs rest hd hm ih =>
      intro lvl h
      have hd0 : d = 0 := by omega
      subst hd0
      obtain ⟨pr, hok, hkeep, hrem⟩ := ih lvl (by
        intro p hp hl
        exact h p (by simp [dirsFrom, hp]) hl)
      have hdec : ∀ p ∈ filesFrom (lvl + 1) cs, decide (p.1 ≤ lvl + 0) = false := by
        intro p hp
        have hle := filesFrom_level_le (lvl + 1) cs p hp
        simp only [decide_eq_false_iff_not]
        omega
      have hkeepcs : (filesFrom (lvl + 1) cs).filter
          (fun p => !(decide (p.1 ≤ lvl + 0) && matchesTemp p.2))
          = filesFrom (lvl + 1) cs := by
        apply List.filter_eq_self.mpr
        intro p hp
        rw [hdec p hp]
        simp
      have hremcs : (filesFrom (lvl + 1) cs).filter
          (fun p => decide (p.1 ≤ lvl + 0) && matchesTemp p.2) = [] := by
        apply List.filter_eq_nil_iff.mpr
        intro p hp
        rw [hdec p hp]
        simp
      refine ⟨(.dir n cs :: pr.1, pr.2), ?_, ?_, ?_⟩
      · simp [scanChildren, hm, hok, Except.map]
      · simp only [filesFrom]
        rw [List.filter_append, hkeepcs, hkeep]
      · simp only [filesFrom]
        rw [List.filter_append, hremcs, List.nil_append, hrem]

/-- C6 amended: provided no directory at the depth limit (level 4) has a
pattern-matching name (such a directory reaches `os.remove` and aborts the
cleanup with an error), `delete_workspaces` removes exactly the files
whose names match `temp_*.pqw6` at depth at most 4 and never descends
further: matching files deeper than level 4 and all non-matching files
survive. Matching directories at levels 1-3 are traversed, not removed
(autoptsserver.py lines 167-178). -/
theorem delete_workspaces_depth_limited (ws : List Entry)
    (h : ∀ p ∈ dirsFrom 1 ws, p.1 = 4 → matchesTemp p.2 = false) :
    ∃ pr, delete_workspaces ws = .ok pr
      ∧ filesFrom 1 pr.1
          = (filesFrom 1 ws).filter (fun p => !(decide (p.1 ≤ 4) && matchesTemp p.2))
      ∧ pr.2 = ((filesFrom 1 ws).filter
          (fun p => decide (p.1 ≤ 4) && matchesTemp p.2)).map (fun p => p.2) := by
  have h4 : (1 : Nat) + 3 = 4 := rfl
  have hmain := scanChildren_ok 3 ws 1 (by rw [h4]; exact h)
  rw [h4] at hmain
  simpa [delete_workspaces, init_depth] using hmain

/-- Witness for `delete_workspaces_depth_limited`: a depth-5 tree
`a/b/c/{temp_4.pqw6, d/temp_5.pqw6}` plus a top-level non-matching file;
the matching file at level 4 is removed, the matching file at level 5 and
the non-matching file survive. -/
theorem delete_workspaces_depth_limited_witness :
    (∀ p ∈ dirsFrom 1
        [Entry.dir ['a'] [Entry.dir ['b'] [Entry.dir ['c']
          [Entry.file ['t','e','m','p','_','4','.','p','q','w','6'],
           Entry.dir ['d'] [Entry.file ['t','e','m','p','_','5','.','p','q','w','6']]]]],
         Entry.file ['x']], p.1 = 4 → matchesTemp p.2 = false)
    ∧ ∃ pr, delete_workspaces
        [Entry.dir ['a'] [Entry.dir ['b'] [Entry.dir ['c']
          [Entry.file ['t','e','m','p','_','4','.','p','q','w','6'],
           Entry.dir ['d'] [Entry.file ['t','e','m','p','_','5','.','p','q','w','6']]]]],
         Entry.file ['x']] = .ok pr
      ∧ filesFrom 1 pr.1
          = (filesFrom 1
              [Entry.dir ['a'] [Entry.dir ['b'] [Entry.dir ['c']
                [Entry.file ['t','e','m','p','_','4','.','p','q','w','6'],
                 Entry.dir ['d'] [Entry.file ['t','e','m','p','_','5','.','p','q','w','6']]]]],
               Entry.file ['x']]).filter (fun p => !(decide (p.1 ≤ 4) && matchesTemp p.2))
      ∧ pr.2 = ((filesFrom 1
              [Entry.dir ['a'] [Entry.dir ['b'] [Entry.dir ['c']
                [Entry.file ['t','e','m','p','_','4','.','p','q','w','6'],
                 Entry.dir ['d'] [Entry.file ['t','e','m','p','_','5','.','p','q','w','6']]]]],
               Entry.file ['x']]).filter
            (fun p => decide (p.1 ≤ 4) && matchesTemp p.2)).map (fun p => p.2) := by
  constructor
  · simp only [dirsFrom]
    decide
  · exact delete_workspaces_depth_limited _ (by simp only [dirsFrom]; decide)

/-- C6 counterexample: the claim says every entry whose name matches the
pattern at depth at most 4 is removed, but a directory named
`temp_a.pqw6` directly under the workspaces root is traversed (depth
budget still positive) and survives the cleanup untouched instead of
being removed (autoptsserver.py lines 172-175: the `is_dir` branch wins
over the name check). -/
theorem delete_workspaces_matching_dir_cex :
    delete_workspaces [Entry.dir ['t','e','m','p','_','a','.','p','q','w','6'] []]
        = .ok ([Entry.dir ['t','e','m','p','_','a','.','p','q','w','6'] []], [])
    ∧ matchesTemp ['t','e','m','p','_','a','.','p','q','w','6'] = true
    ∧ ¬ delete_workspaces [Entry.dir ['t','e','m','p','_','a','.','p','q','w','6'] []]
        = .ok ([], [['t','e','m','p','_','a','.','p','q','w','6']]) := by
  have h1 : delete_workspaces [Entry.dir ['t','e','m','p','_','a','.','p','q','w','6'] []]
      = .ok ([Entry.dir ['t','e','m','p','_','a','.','p','q','w','6'] []], []) := by
    simp [delete_workspaces, init_depth, scanChildren, Except.bind, Except.map]
  refine ⟨h1, by decide, fun hc => ?_⟩
  rw [h1] at hc
  simp at hc

/-! ## `Server.last_start` and the file-utility handlers
(autoptsserver.py lines 249-252, 311-337) -/

/-- The part of the PTS automation handle visible to this subsystem: its
`last_start_time` activity timestamp. -/
structure PTSState where
  last_start_time : Int
deriving Repr, DecidableEq

/-- A `Server`'s state as the handlers see it: `self.pts`, `None` before
`main` creates the handle (line 247). -/
structure WorkerState where
  pts : Option PTSState
deriving Repr, DecidableEq

/-- `Server.last_start` (lines 249-252): the engine's `last_start_time`
when a handle exists, otherwise `time.time()` — an unstarted worker never
appears idle. -/
def last_start (now : Int) (s : WorkerState) : Int :=
  match s.pts with
  | some p => p.last_start_time
  | none => now

/-- `root + '/' + name` path join for the walk. -/
def joinPath (root n : List Char) : List Char := root ++ '/' :: n

/-- The file paths directly inside one directory, as `os.walk` reports
them for that directory. -/
def dirFiles (root : List Char) : List Entry → List (List Char)
  | [] => []
  | .file n :: rest => joinPath root n :: dirFiles root rest
  | .dir _ _ :: rest => dirFiles root rest

/-- The walk of all subdirectories of a directory in `os.walk(.,
topdown=False)` order: each subdirectory's walk, its files, then the
subdirectory itself. -/
def walkSubdirs : List Char → List Entry → List (List Char)
  | _, [] => []
  | root, .file _ :: rest => walkSubdirs root rest
  | root, .dir n cs :: rest =>
      (walkSubdirs (joinPath root n) cs ++ dirFiles (joinPath root n) cs
        ++ [joinPath root n]) ++ walkSubdirs root rest

/-- `Server.list_workspace_tree` (lines 311-322) on the resolved workspace
root: collects, for every directory yielded by the bottom-up walk, its
file paths and then the directory path. The line updating
`self.pts.last_start_time` is commented out in the source, so the worker
state is returned unchanged. -/
def list_workspace_tree (s : WorkerState) (root : List Char) (es : List Entry) :
    WorkerState × List (List Char) :=
  (s, walkSubdirs root es ++ dirFiles root es ++ [root])

/-- `Server.copy_file` (lines 324-330) over a path-to-content map: returns
the file's bytes when the path is a file, `None` otherwise. The
timestamp-refresh line is commented out in the source, so the worker state
is returned unchanged. -/
def copy_file (s : WorkerState) (files : List (List Char × List Char)) (p : List Char) :
    WorkerState × Option (List Char) :=
  (s, (files.find? (fun f => f.1 == p)).map (fun f => f.2))

/-- `Server.delete_file` (lines 332-337) over a path-to-content map:
removes the entry at the given path. The timestamp-refresh line is
commented out in the source, so the worker state is returned unchanged. -/
def delete_file (s : WorkerState) (files : List (List Char × List Char)) (p : List Char) :
    WorkerState × List (List Char × List Char) :=
  (s, files.filter (fun f => !(f.1 == p)))

/-- C8 counterexample: a serviced `copy_file` request at time 100 on a
worker whose engine timestamp is 0 leaves the timestamp at 0 instead of
updating it to 100 — the update statements in the three file-utility
handlers are commented out in the source (autoptsserver.py lines 312, 325,
333). -/
theorem handlers_no_refresh_cex :
    (copy_file { pts := some { last_start_time := 0 } } [] ['f']).1
        = { pts := some { last_start_time := 0 } }
    ∧ last_start 100 (copy_file { pts := some { last_start_time := 0 } } [] ['f']).1 = 0
    ∧ (0 : Int) ≠ 100 := by
  refine ⟨rfl, rfl, by decide⟩

/-- C8 amended: none of the file-utility handlers (`list_workspace_tree`,
`copy_file`, `delete_file`) updates `lastActivityTimestamp`; the worker
state, and hence `last_start`, is unchanged by servicing them; the
timestamp only reflects engine work recorded in `pts.last_start_time`
outside these handlers, and `last_start` reports `now` for an unstarted
worker (autoptsserver.py lines 249-252, 311-337). -/
theorem handlers_preserve_last_start (s : WorkerState) (now : Int)
    (root p : List Char) (es : List Entry)
    (files : List (List Char × List Char)) :
    (list_workspace_tree s root es).1 = s
    ∧ (copy_file s files p).1 = s
    ∧ (delete_file s files p).1 = s
    ∧ last_start now (copy_file s files p).1 = last_start now s
    ∧ last_start now (list_workspace_tree s root es).1 = last_start now s
    ∧ last_start now (delete_file s files p).1 = last_start now s
    ∧ (∀ t, last_start now { pts := some { last_start_time := t } } = t)
    ∧ last_start now { pts := none } = now := by
  exact ⟨rfl, rfl, rfl, rfl, rfl, rfl, fun t => rfl, rfl⟩

/-! ## Recovery: `kill_all_processes`, `turn_on_dongle`, `recover_pts`
(autoptsserver.py lines 156-204) -/

/-- A process-table row as WMI reports it: executable name, pid, and
whether its `Terminate()` call succeeds. -/
structure Proc where
  pname : List Char
  pid : Nat
  termOk : Bool
deriving Repr, DecidableEq

/-- Externally observable actions of the recovery sequence. -/
inductive Effect where
  | terminated (pname : List Char) (pid : Nat)
  | termFailedLogged (pname : List Char) (pid : Nat)
  | removedFile (name : List Char)
  | powerOff (port : Nat)
  | powerOn (port : Nat)
  | slept (secs : Nat)
deriving Repr, DecidableEq

/-- `kill_all_processes(name)` (lines 156-164): for every process whose
name matches, attempt `Terminate()`; a failing terminate is caught and
logged inside the per-process `try`, so the function itself never raises
— in particular zero matching processes produce no action and no error. -/
def kill_all_processes (pname : List Char) (procs : List Proc) : List Effect :=
  (procs.filter (fun p => p.pname == pname)).map
    (fun p => if p.termOk then .terminated p.pname p.pid
              else .termFailedLogged p.pname p.pid)

/-- The characters of `'PTS.exe'` (line 183). -/
def ptsExe : List Char := ['P', 'T', 'S', '.', 'e', 'x', 'e']

/-- The characters of `'Fts.exe'` (line 184). -/
def ftsExe : List Char := ['F', 't', 's', '.', 'e', 'x', 'e']

/-- `turn_on_dongle(ykush_ports)` (lines 190-204): launch `ykushcmd -d`
for every port (power off), sleep 5, launch `ykushcmd -u` for every port
(power on), sleep 2. -/
def turn_on_dongle (ykush_ports : List Nat) : List Effect :=
  ykush_ports.map .powerOff ++ [.slept 5]
    ++ ykush_ports.map .powerOn ++ [.slept 2]

/-- The state outside the process that recovery manipulates. -/
structure World where
  procs : List Proc
  workspaces : List Entry

/-- `recover_pts(ykush_ports)` (lines 181-187): kill stray `PTS.exe`
processes, kill stray `Fts.exe` processes, run `delete_workspaces()`
(whose exceptions are not caught and so propagate to the caller), then —
only when the port list is truthy, i.e. non-empty — power-cycle the
dongle ports. Returns the effect trace in execution order. -/
def recover_pts (ykush_ports : List Nat) (w : World) : Except (List Char) (List Effect) :=
  let k1 := kill_all_processes ptsExe w.procs
  let k2 := kill_all_processes ftsExe w.procs
  match delete_workspaces w.workspaces with
  | .error e => .error e
  | .ok r =>
      .ok (k1 ++ k2 ++ r.2.map .removedFile
        ++ (if ykush_ports.isEmpty then [] else turn_on_dongle ykush_ports))

/-- `Except` result without the payload. -/
def exceptOk {ε α : Type} : Except ε α → Bool
  | .ok _ => true
  | .error _ => false

/-- C5: `recover_pts` performs its steps in the fixed order: terminate
stray `PTS.exe` processes (zero matches meaning success with no action),
then stray `Fts.exe` processes, then remove the stale `temp_*.pqw6`
workspace artifacts, then — if and only if the port list is non-empty —
power every listed port off, sleep 5, power every listed port on, sleep 2,
and return (autoptsserver.py lines 156-204). -/
theorem recover_pts_step_order (ports : List Nat) (w : World)
    (r : List Entry × List (List Char))
    (h : delete_workspaces w.workspaces = .ok r) :
    recover_pts ports w
      = .ok (kill_all_processes ptsExe w.procs ++ kill_all_processes ftsExe w.procs
          ++ r.2.map Effect.removedFile
          ++ (if ports.isEmpty then [] else turn_on_dongle ports))
    ∧ (∀ nm procs2, (∀ p ∈ procs2, p.pname ≠ nm) → kill_all_processes nm procs2 = [])
    ∧ turn_on_dongle ports
      = ports.map Effect.powerOff ++ [Effect.slept 5]
        ++ ports.map Effect.powerOn ++ [Effect.slept 2]
    ∧ (ports = [] → recover_pts ports w
        = .ok (kill_all_processes ptsExe w.procs ++ kill_all_processes ftsExe w.procs
            ++ r.2.map Effect.removedFile)) := by
  refine ⟨?_, ?_, rfl, ?_⟩
  · simp [recover_pts, h]
  · intro nm procs2 hnone
    have : procs2.filter (fun p => p.pname == nm) = [] := by
      apply List.filter_eq_nil_iff.mpr
      intro p hp
      simpa using hnone p hp
    simp [kill_all_processes, this]
  · intro hp
    subst hp
    simp [recover_pts, h]

/-- Witness for `recover_pts_step_order`: one stray PTS process, one
unrelated process, a workspace with one matching artifact, one dongle
port. -/
theorem recover_pts_step_order_witness :
    delete_workspaces [Entry.file ['t','e','m','p','_','a','.','p','q','w','6']]
        = .ok ([], [['t','e','m','p','_','a','.','p','q','w','6']])
    ∧ recover_pts [3]
        { procs := [⟨['P','T','S','.','e','x','e'], 7, true⟩, ⟨['o'], 8, true⟩],
          workspaces := [Entry.file ['t','e','m','p','_','a','.','p','q','w','6']] }
      = .ok (kill_all_processes ptsExe
            [⟨['P','T','S','.','e','x','e'], 7, true⟩, ⟨['o'], 8, true⟩]
          ++ kill_all_processes ftsExe
            [⟨['P','T','S','.','e','x','e'], 7, true⟩, ⟨['o'], 8, true⟩]
          ++ [['t','e','m','p','_','a','.','p','q','w','6']].map Effect.removedFile
          ++ (if ([3] : List Nat).isEmpty then [] else turn_on_dongle [3])) := by
  have hdel : delete_workspaces [Entry.file ['t','e','m','p','_','a','.','p','q','w','6']]
      = .ok (([], [['t','e','m','p','_','a','.','p','q','w','6']]) :
          List Entry × List (List Char)) := by
    simp [delete_workspaces, init_depth, scanChildren, Except.map,
      show matchesTemp ['t','e','m','p','_','a','.','p','q','w','6'] = true from by decide]
  exact ⟨hdel, (recover_pts_step_order [3] _ _ hdel).1⟩

/-- C4 counterexample: recovery can raise to its caller. With a clean
process table and a workspace tree `a/b/c/temp_a.pqw6` whose level-4
entry is a directory with a pattern-matching name, `delete_workspaces`
reaches `os.remove` on a directory and raises; `recover_pts` does not
catch it (lines 181-187 have no try/except), so the exception escapes
instead of being absorbed (autoptsserver.py lines 167-187). -/
theorem recover_pts_raises_cex :
    recover_pts []
        { procs := [],
          workspaces := [Entry.dir ['a'] [Entry.dir ['b'] [Entry.dir ['c']
            [Entry.dir ['t','e','m','p','_','a','.','p','q','w','6'] []]]]] }
      = .error ['t','e','m','p','_','a','.','p','q','w','6']
    ∧ exceptOk (recover_pts []
        { procs := [],
          workspaces := [Entry.dir ['a'] [Entry.dir ['b'] [Entry.dir ['c']
            [Entry.dir ['t','e','m','p','_','a','.','p','q','w','6'] []]]]] }) = false := by
  have herr : delete_workspaces [Entry.dir ['a'] [Entry.dir ['b'] [Entry.dir ['c']
      [Entry.dir ['t','e','m','p','_','a','.','p','q','w','6'] []]]]]
      = .error ['t','e','m','p','_','a','.','p','q','w','6'] := by
    simp [delete_workspaces, init_depth, scanChildren, Except.map, Except.bind,
      show matchesTemp ['t','e','m','p','_','a','.','p','q','w','6'] = true from by decide]
  refine ⟨?_, ?_⟩ <;> simp [recover_pts, herr, exceptOk]

/-- C4 amended: only the per-process `Terminate()` failures inside
`kill_all_processes` are absorbed (each failing terminate becomes a logged
effect, never an exception, and the step always completes over the whole
process table); a failure in the workspace-cleanup step is not absorbed:
`recover_pts` raises exactly when `delete_workspaces` raises
(autoptsserver.py lines 156-187). -/
theorem recover_pts_error_propagation (ports : List Nat) (w : World) :
    exceptOk (recover_pts ports w) = exceptOk (delete_workspaces w.workspaces)
    ∧ (∀ nm procs2, (kill_all_processes nm procs2).length
        = (procs2.filter (fun p => p.pname == nm)).length)
    ∧ (∀ nm procs2, ∀ p ∈ procs2, p.pname = nm → p.termOk = false →
        Effect.termFailedLogged p.pname p.pid ∈ kill_all_processes nm procs2) := by
  refine ⟨?_, ?_, ?_⟩
  · cases hdel : delete_workspaces w.workspaces with
    | error e => simp [recover_pts, hdel, exceptOk]
    | ok r => simp [recover_pts, hdel, exceptOk]
  · intro nm procs2
    simp [kill_all_processes]
  · intro nm procs2 p hp hname hterm
    have hmem : p ∈ procs2.filter (fun q => q.pname == nm) := by
      simp [List.mem_filter, hp, hname]
    have : (if p.termOk then Effect.terminated p.pname p.pid
        else Effect.termFailedLogged p.pname p.pid)
        ∈ kill_all_processes nm procs2 :=
      List.mem_map_of_mem _ hmem
    rw [hterm] at this
    simpa using this

/-! ## The `__main__` supervision loop (autoptsserver.py lines 363-409)
and `check_args` (lines 128-139) -/

/-- What one pass of the `while True` body observed: a
`KeyboardInterrupt`, or completion of the serve phase with the string
aggregated from draining the failure queue (lines 387-396; an empty
string means no failure and the loop breaks). A non-empty aggregate is
re-raised (line 396) and lands in the `except BaseException` arm. -/
inductive RunEvent where
  | interrupted
  | completed (exceptions : String)
deriving Repr, DecidableEq

/-- The decision one iteration of the supervision loop ends with: leave
the process with an exit code, or run `superguard.clear()` plus
`recover_pts` and loop again. -/
inductive LoopOutcome where
  | exitProcess (code : Nat)
  | recoverAndRetry
deriving Repr, DecidableEq

/-- One iteration of the `while True` loop (lines 377-409):
`KeyboardInterrupt` exits with code 14 (line 400); an empty aggregated
failure string breaks out of the loop and the process ends with code 0
(lines 395-397); a non-empty aggregate is raised and, if
`_args.recovery or superguard.was_timeout`, the watchdog is cleared and
recovery runs before looping, otherwise the process exits with code 16
(lines 402-409). Returns the decision and the watchdog state after it. -/
def supervisorIteration (recovery : Bool) (g : SGState) (ev : RunEvent) :
    LoopOutcome × SGState :=
  match ev with
  | .interrupted => (.exitProcess 14, g)
  | .completed exc =>
      if exc = "" then (.exitProcess 0, g)
      else if recovery || g.was_timeout then (.recoverAndRetry, sgClear g)
      else (.exitProcess 16, g)

/-- C3: after a failure the supervisor's choice is a pure function of the
recovery flag and the watchdog's `was_timeout` flag — recover (clearing
the watchdog registry and flag, not exiting) when either is set, else
exit with the fatal code 16; a user interrupt exits with the distinct
code 14 regardless of the flags, bypassing recovery; exit code 0 happens
only when the aggregated failure text is empty and no interrupt occurred;
the three codes are pairwise distinct and the failure codes are non-zero
(autoptsserver.py lines 377-409). -/
theorem supervisor_decision (recovery : Bool) (g : SGState) (ev : RunEvent)
    (exc : String) :
    supervisorIteration recovery g .interrupted = (.exitProcess 14, g)
    ∧ (exc ≠ "" → supervisorIteration recovery g (.completed exc)
        = if recovery || g.was_timeout then (.recoverAndRetry, sgClear g)
          else (.exitProcess 16, g))
    ∧ (∀ recovery2 (g2 : SGState) (exc2 : String), exc ≠ "" → exc2 ≠ "" →
        recovery = recovery2 → g.was_timeout = g2.was_timeout →
        (supervisorIteration recovery g (.completed exc)).1
          = (supervisorIteration recovery2 g2 (.completed exc2)).1)
    ∧ ((supervisorIteration recovery g ev).1 = .exitProcess 0 → ev = .completed "")
    ∧ ((sgClear g).servers = [] ∧ (sgClear g).was_timeout = false)
    ∧ ((14 : Nat) ≠ 16 ∧ (14 : Nat) ≠ 0 ∧ (16 : Nat) ≠ 0) := by
  refine ⟨rfl, ?_, ?_, ?_, ⟨rfl, rfl⟩, by decide⟩
  · intro hne
    simp [supervisorIteration, hne]
  · intro recovery2 g2 exc2 hne hne2 hr hw
    simp only [supervisorIteration, if_neg hne, if_neg hne2, hr, hw]
    by_cases hc : recovery2 = true ∨ g2.was_timeout = true
    · simp [hc]
    · simp [hc]
  · intro h0
    cases ev with
    | interrupted => simp [supervisorIteration] at h0
    | completed e =>
        by_cases he : e = ""
        · rw [he]
        · simp only [supervisorIteration, if_neg he] at h0
          by_cases hrec : (recovery || g.was_timeout) = true
          · rw [if_pos hrec] at h0
            simp at h0
          · rw [if_neg hrec] at h0
            simp at h0

/-- Witness for `supervisor_decision`: recovery disabled, watchdog flag
set, a non-empty failure aggregate — the iteration recovers instead of
exiting. -/
theorem supervisor_decision_witness :
    supervisorIteration false { servers := [⟨1, 0⟩], timeout := 10, was_timeout := true }
        (.completed "worker down")
      = (.recoverAndRetry, sgClear { servers := [⟨1, 0⟩], timeout := 10, was_timeout := true })
    ∧ supervisorIteration false { servers := [⟨1, 0⟩], timeout := 10, was_timeout := true }
        .interrupted
      = (.exitProcess 14, { servers := [⟨1, 0⟩], timeout := 10, was_timeout := true }) := by
  have h := supervisor_decision false
    { servers := [⟨1, 0⟩], timeout := 10, was_timeout := true }
    (.completed "worker down") "worker down"
  refine ⟨?_, h.1⟩
  have h2 := h.2.1 (by decide)
  simpa using h2

/-- The port configuration after `check_args`: a one-element list is
collapsed to the bare integer (lines 136-137), so the supervisor later
dispatches on the value's type (line 379). -/
inductive PortCfg where
  | single (p : Int)
  | multi (ps : List Int)
deriving Repr, DecidableEq

/-- The arguments after a successful `check_args` run. -/
structure CheckedArgs where
  srv_port : PortCfg
  superguard : Int
deriving Repr, DecidableEq

/-- `SvrArgumentParser.check_args` (lines 128-139): `sys.exit` (modelled
as `Except.error` carrying the offending port) on the first configured
port outside `<49152, 65535>`; otherwise collapse a one-element port list
to a bare value and scale the superguard minutes by 60. -/
def check_args (srv_port : List Int) (superguard_minutes : Int) :
    Except Int CheckedArgs :=
  match srv_port.find? (fun p => !(decide (49152 ≤ p) && decide (p ≤ 65535))) with
  | some p => .error p
  | none =>
      .ok { srv_port :=
              match srv_port with
              | [p] => .single p
              | ps => .multi ps
            superguard := 60 * superguard_minutes }

/-- Which branch of the `while True` body the supervisor takes (lines
379-385): `isinstance(_args.srv_port, int)` runs one server in the main
process, otherwise `multi_main` runs servers in threads. -/
inductive SupervisorPath where
  | inProcess
  | threaded
deriving Repr, DecidableEq

/-- The dispatch on the type of `_args.srv_port` (line 379). -/
def supervisorPath : PortCfg → SupervisorPath
  | .single _ => .inProcess
  | .multi _ => .threaded

/-- C10: `check_args` terminates the process unless every configured port
lies in `<49152, 65535>` (the error carries the first offending port,
which really is a configured out-of-range port); a single-element port
list is collapsed to a bare integer while longer lists are kept, and the
supervisor's dispatch differs between the two shapes
(autoptsserver.py lines 128-139, 379-385). -/
theorem check_args_port_range (ports : List Int) (m : Int) :
    (exceptOk (check_args ports m) = true ↔ ∀ p ∈ ports, 49152 ≤ p ∧ p ≤ 65535)
    ∧ (∀ p, check_args ports m = .error p →
        p ∈ ports ∧ ¬(49152 ≤ p ∧ p ≤ 65535))
    ∧ (∀ p, 49152 ≤ p → p ≤ 65535 →
        check_args [p] m = .ok { srv_port := .single p, superguard := 60 * m })
    ∧ (ports.length ≠ 1 → (∀ p ∈ ports, 49152 ≤ p ∧ p ≤ 65535) →
        check_args ports m = .ok { srv_port := .multi ports, superguard := 60 * m })
    ∧ (∀ p ps, supervisorPath (.single p) = .inProcess
        ∧ supervisorPath (.multi ps) = .threaded
        ∧ SupervisorPath.inProcess ≠ .threaded) := by
  refine ⟨?_, ?_, ?_, ?_, ?_⟩
  · constructor
    · intro ha p hp
      cases hfind : ports.find? (fun q => !(decide (49152 ≤ q) && decide (q ≤ 65535))) with
      | some q =>
          exfalso
          simp only [check_args] at ha
          rw [hfind] at ha
          simp [exceptOk] at ha
      | none =>
          have := List.find?_eq_none.mp hfind p hp
          simpa using this
    · intro hall
      have hfind : ports.find? (fun q => !(decide (49152 ≤ q) && decide (q ≤ 65535))) = none := by
        apply List.find?_eq_none.mpr
        intro p hp
        simpa using hall p hp
      simp only [check_args]
      rw [hfind]
      rfl
  · intro p herr
    cases hfind : ports.find? (fun q => !(decide (49152 ≤ q) && decide (q ≤ 65535))) with
    | none =>
        exfalso
        simp only [check_args] at herr
        rw [hfind] at herr
        exact Except.noConfusion herr
    | some q =>
        simp only [check_args] at herr
        rw [hfind, Except.error.injEq] at herr
        have hmem := List.mem_of_find?_eq_some hfind
        have hprop := List.find?_some hfind
        rw [herr] at hmem hprop
        refine ⟨hmem, fun hc => ?_⟩
        have hor : p < 49152 ∨ 65535 < p := by simpa using hprop
        omega
  · intro p h1 h2
    have hfind : [p].find? (fun q => !(decide (49152 ≤ q) && decide (q ≤ 65535))) = none := by
      apply List.find?_eq_none.mpr
      intro q hq
      simp only [List.mem_singleton] at hq
      subst hq
      simp [h1, h2]
    simp only [check_args]
    rw [hfind]
  · intro hlen hall
    have hfind : ports.find? (fun q => !(decide (49152 ≤ q) && decide (q ≤ 65535))) = none := by
      apply List.find?_eq_none.mpr
      intro p hp
      simpa using hall p hp
    cases ports with
    | nil =>
        simp only [check_args]
        rw [hfind]
    | cons p rest =>
        cases rest with
        | nil => simp at hlen
        | cons p2 rest2 =>
            simp only [check_args]
            rw [hfind]
  · intro p ps
    exact ⟨rfl, rfl, by decide⟩

/-- Witness for `check_args_port_range`: the in-range singleton `[50000]`
is collapsed to a bare port, and the two-element list `[50000, 50001]`
keeps the list shape. -/
theorem check_args_port_range_witness :
    check_args [50000] 2 = .ok { srv_port := .single 50000, superguard := 120 }
    ∧ check_args [50000, 50001] 2
      = .ok { srv_port := .multi [50000, 50001], superguard := 120 } := by
  have h1 := (check_args_port_range [50000] 2).2.2.1 50000 (by decide) (by decide)
  have h2 := (check_args_port_range [50000, 50001] 2).2.2.2.1 (by decide)
    (by decide)
  refine ⟨?_, ?_⟩
  · simpa using h1
  · simpa using h2
